import Mathlib

/-!
Verification of the Record Reconciliation Engine of the Virginia
campaign-finance repository.

The Python sources are shallowly embedded below.  Strings are modelled as
`List Char` (the inputs in scope are ASCII, so Python's Unicode-aware
classifiers coincide with the ASCII ones used here); `None` values are
modelled with `Option`; decimal amounts are modelled as exact rationals
(the binary floating-point representation of the pandas pipeline is
abstracted to `ℚ`).  Each definition mirrors one function of the source
tree; comments give the source file.
-/

set_option maxRecDepth 10000

namespace VaCF

/-! ## Python string primitives (ASCII fragment) -/

/-- Python `\w` (word character), ASCII fragment: letters, digits, underscore. -/
def isWordChar (c : Char) : Bool := c.isAlphanum || c = '_'

/-- Python `\s` / `str.strip` whitespace, ASCII fragment. -/
def isPyWs (c : Char) : Bool := c = ' ' || c = '\t' || c = '\n' || c = '\r' || c = '\x0b' || c = '\x0c'

/-- Python `str.strip()` on a character list. -/
def pyStrip (s : List Char) : List Char :=
  ((s.dropWhile isPyWs).reverse.dropWhile isPyWs).reverse

/-- Python `str.upper()` (ASCII). -/
def pyUpper (s : List Char) : List Char := s.map Char.toUpper

/-- Python `str.lower()` (ASCII). -/
def pyLower (s : List Char) : List Char := s.map Char.toLower

/-- Python `re.sub(r'\s+', ' ', s)`: each maximal whitespace run becomes one
space. The boolean state records whether the previous character was whitespace. -/
def collapseWsAux : Bool → List Char → List Char
  | _, [] => []
  | prevWs, c :: rest =>
    if isPyWs c then
      if prevWs then collapseWsAux true rest else ' ' :: collapseWsAux true rest
    else c :: collapseWsAux false rest

def collapseWs (s : List Char) : List Char := collapseWsAux false s

/-- Python `str.split()` (split on whitespace runs, no empty parts).
`cur` accumulates the current word, reversed. -/
def splitWsAux : List Char → List Char → List (List Char)
  | cur, [] => if cur.isEmpty then [] else [cur.reverse]
  | cur, c :: rest =>
    if isPyWs c then
      if cur.isEmpty then splitWsAux [] rest else cur.reverse :: splitWsAux [] rest
    else splitWsAux (c :: cur) rest

def splitWs (s : List Char) : List (List Char) := splitWsAux [] s

/-- Join character lists with a single separator character. -/
def joinWith (sep : Char) : List (List Char) → List Char
  | [] => []
  | [w] => w
  | w :: ws => w ++ sep :: joinWith sep ws

/-- Python `str.title()` (ASCII): a letter is uppercased when the previous
character is not a letter, lowercased otherwise. -/
def pyTitleAux : Bool → List Char → List Char
  | _, [] => []
  | prevAlpha, c :: rest =>
    if c.isAlpha then
      (if prevAlpha then c.toLower else c.toUpper) :: pyTitleAux true rest
    else c :: pyTitleAux false rest

def pyTitle (s : List Char) : List Char := pyTitleAux false s

/-- Whether `needle` starts `hay`. -/
def isPrefixL : List Char → List Char → Bool
  | [], _ => true
  | _ :: _, [] => false
  | a :: as, b :: bs => a = b && isPrefixL as bs

/-- Python `needle in hay` (substring containment). -/
def containsSub (hay needle : List Char) : Bool :=
  match hay with
  | [] => isPrefixL needle []
  | _ :: rest => isPrefixL needle hay || containsSub rest needle

/-- Python `str.split(sep)` for a single-character separator (keeps empties). -/
def splitOnChar (sep : Char) : List Char → List (List Char)
  | [] => [[]]
  | c :: rest =>
    if c = sep then [] :: splitOnChar sep rest
    else match splitOnChar sep rest with
      | [] => [[c]]
      | w :: ws => (c :: w) :: ws

/-- Python `int(s)`: optional surrounding whitespace, optional sign, digits
with single underscores allowed between digits. -/
def pyDigitsU : List Char → Option Nat → Option Nat
  | [], acc => acc
  | '_' :: c :: rest, some acc =>
    if c.isDigit then pyDigitsU rest (some (acc * 10 + (c.toNat - 48))) else none
  | '_' :: _, _ => none
  | c :: rest, acc =>
    if c.isDigit then
      pyDigitsU rest (some ((acc.getD 0) * 10 + (c.toNat - 48)))
    else none

def pyInt (s : List Char) : Option Int :=
  match pyStrip s with
  | [] => none
  | '+' :: rest => (pyDigitsU rest none).map (fun n => (n : Int))
  | '-' :: rest => (pyDigitsU rest none).map (fun n => -(n : Int))
  | rest => (pyDigitsU rest none).map (fun n => (n : Int))

/-! ## A small matcher for the regex fragment used by `name_normalization.py`

Every substitution pattern in the source has the shape
`\b CORE \b` where `CORE` is a sequence of literal characters, optional
dots (`\.?`) and whitespace runs (`\s+`).  The matcher below implements
exactly Python's backtracking preference order for that fragment
(`\.?` and `\s+` are greedy), and `subAll` implements `re.sub(pat, repl, s)`
with its left-to-right non-overlapping scan. -/

inductive PatElem where
  | lit (c : Char)
  | optDot
  | wsPlus
deriving Repr, DecidableEq

/-- Literal pattern tokens from a string. -/
def lits (s : String) : List PatElem := s.data.map PatElem.lit

/-- All ways to match the core at the head of `s`; produces
`(last consumed char, remainder)` candidates in backtracking preference
order. `prev` is the character immediately before the unmatched rest
(used when an optional element consumes nothing).  `wsCands` enumerates
the `\s+` consumptions, longest first. -/
def wsCands (_prev : Char) (s : List Char) : List (Char × List Char) :=
  match s with
  | c :: rest =>
    if isPyWs c then wsCands c rest ++ [(c, rest)]
    else []
  | [] => []

def matchCore : List PatElem → Char → List Char → List (Char × List Char)
  | [], prev, s => [(prev, s)]
  | PatElem.lit c :: ps, _, x :: s => if x = c then matchCore ps x s else []
  | PatElem.lit _ :: _, _, [] => []
  | PatElem.optDot :: ps, prev, s =>
    (match s with
     | '.' :: s2 => matchCore ps '.' s2
     | _ => []) ++ matchCore ps prev s
  | PatElem.wsPlus :: ps, prev, s =>
    (wsCands prev s).flatMap (fun pr => matchCore ps pr.1 pr.2)

/-- The `\b` before a match: the first core character is always a word
character, so the boundary holds iff the previous character is absent or
not a word character. -/
def boundaryBefore : Option Char → Bool
  | none => true
  | some c => !isWordChar c

/-- The `\b` after a match, between the last consumed character and the
remainder. -/
def boundaryAfter (last : Char) : List Char → Bool
  | [] => isWordChar last
  | c :: _ => isWordChar last != isWordChar c

/-- Try to match `\b core \b` at the current position.  Returns the first
candidate (in backtracking order) whose trailing boundary holds, as
Python's engine does. -/
def tryMatchAt (core : List PatElem) (prev : Option Char) (s : List Char) : Option (Char × List Char) :=
  if boundaryBefore prev then
    (matchCore core (prev.getD ' ') s).find? (fun pr => boundaryAfter pr.1 pr.2)
  else none

/-- One `re.sub` pass over `s` for an alternation of cores (tried in
order), replacing every non-overlapping match by `repl`.  Boundary tests
are made against the original characters, as in Python.  The fuel is an
upper bound on the number of scan steps; every match consumes at least
one character, so `s.length + 1` suffices. -/
def subAllAux (cores : List (List PatElem)) (repl : List Char) : Nat → Option Char → List Char → List Char
  | 0, _, s => s
  | Nat.succ fuel, prev, s =>
    match s with
    | [] => []
    | c :: rest =>
      match cores.findSome? (fun core => tryMatchAt core prev s) with
      | some (last, rem) => repl ++ subAllAux cores repl fuel (some last) rem
      | none => c :: subAllAux cores repl fuel (some c) rest

def subAll (cores : List (List PatElem)) (repl : List Char) (s : List Char) : List Char :=
  subAllAux cores repl (s.length + 1) none s

/-- `re.sub(r'^\W+', '', s)`: drop the leading run of non-word characters. -/
def dropLeadingNonWord (s : List Char) : List Char :=
  s.dropWhile (fun c => !isWordChar c)

/-- `re.sub(r'\W+$', '', s)`: drop the trailing run of non-word characters. -/
def dropTrailingNonWord (s : List Char) : List Char :=
  (s.reverse.dropWhile (fun c => !isWordChar c)).reverse

/-- `re.sub(r'\bWORD$', '', s)`: remove `WORD` when it ends the string with a
word boundary before it. -/
def stripEndWord (w : List Char) (s : List Char) : List Char :=
  if s.length ≥ w.length && decide (s.drop (s.length - w.length) = w) &&
     (s.length = w.length || !isWordChar (s.getD (s.length - w.length - 1) ' ')) then
    s.take (s.length - w.length)
  else s

/-! ## Embedding of `src/functions/name_normalization.py` -/

/-- A `\bWORD\b` pattern core. -/
def wordPat (s : String) : List PatElem := lits s

/-- A `\bWORD\.?\b` pattern core. -/
def wordDotPat (s : String) : List PatElem := lits s ++ [PatElem.optDot]

/-- `TITLE_PATTERNS`, in source order. -/
def TITLE_PATTERNS : List (List PatElem) := [
  wordPat "DELEGATE", wordDotPat "DEL",
  wordPat "SENATOR", wordDotPat "SEN",
  wordPat "GOVERNOR", wordDotPat "GOV",
  wordPat "LIEUTENANT GOVERNOR",
  lits "LT" ++ [PatElem.optDot] ++ lits " GOV" ++ [PatElem.optDot],
  lits "LIEUT" ++ [PatElem.optDot] ++ lits " GOV" ++ [PatElem.optDot],
  wordPat "ATTORNEY GENERAL", wordPat "AG",
  lits "A.G" ++ [PatElem.optDot],
  wordPat "MAYOR", wordPat "SHERIFF",
  wordPat "THE HONORABLE", wordPat "HONORABLE", wordDotPat "HON",
  wordDotPat "MR", wordDotPat "MRS", wordDotPat "MS", wordDotPat "MISS",
  wordDotPat "DR", wordPat "DOCTOR",
  wordDotPat "PROF", wordPat "PROFESSOR",
  wordDotPat "REV", wordPat "REVEREND",
  wordDotPat "CAPT", wordPat "CAPTAIN",
  wordDotPat "COL", wordPat "COLONEL",
  wordDotPat "MAJ", wordPat "MAJOR",
  wordDotPat "LT", wordPat "LIEUTENANT",
  wordDotPat "GEN", wordPat "GENERAL",
  wordDotPat "ESQ", wordPat "ESQUIRE"]

/-- `PAC_PATTERN`: `\b(POLITICAL\s+ACTION\s+COMMITTEE)\b`. -/
def pacPhrasePat : List PatElem :=
  lits "POLITICAL" ++ [PatElem.wsPlus] ++ lits "ACTION" ++ [PatElem.wsPlus] ++ lits "COMMITTEE"

/-- `EXACT_DOMINION_MATCHES` (literal set from the source). -/
def EXACT_DOMINION_MATCHES : List (List Char) := [
  "DOMINION".data,
  "DOMINION PAC".data,
  "DOMINION ENERGY PAC".data,
  "DOMINION POLITICAL ACTION COMMITTEE".data,
  "DOMINION POLITICAL ACTION COMMITTEE - VA".data,
  "DOMINION POLITICAL ACTION COMMITTEE- VA LAST NAME LEFT BLANK".data,
  "DOMINION EMPLOYEES PAC".data,
  "DOMINION VA POWER".data,
  "DOMINION VA. POWER".data,
  "DOMINION ENERGY INC. PAC".data,
  "DOMINION ENERGY INC PAC - VA".data,
  "DOMINION ENERGY INC. PAC - VA".data,
  "DOMINION ENERGY INC. PAC - VIRGINIA".data,
  "DOMINION ENERGY INC PAC - VIRGINIA".data,
  "DOMINION PAC - VA".data,
  "DOMINION POWER".data,
  "DOMINION PAC VA".data,
  "DOMINION POLITICAL ACTION COMMITTE - VA".data,
  "DOMINION PAC-VA".data,
  "DOMINION POWER PAC".data,
  "DOMINION POLITICAL ACTION COMITTEE".data,
  "DOMINION PAC OF VA".data,
  "DOMINION PAC-VA".data,
  "DOMINION POLITICAL ACCTION COMMITEE".data,
  "DOMINION PAC VA".data,
  "DOMINION-PAC-VA".data,
  "DOMINION ENERGY, INC.".data,
  "DOMINION ENERGY INC.".data,
  "DOMINION ENERGY INC".data,
  "DOMINION RESOURCES INC. PAC - VA".data,
  "DOMINION RESOURCES".data,
  "DOMINIONENERGY".data,
  "DOMINION ENGERGY".data]

/-- `EXACT_CLEAN_VA_MATCHES` (literal set from the source). -/
def EXACT_CLEAN_VA_MATCHES : List (List Char) := [
  "CLEAN VA FUND".data,
  "CLEAN VA".data,
  "CLEAN VA ACTION FUND".data,
  "CLEAN VA PAC".data,
  "CLEAN VA FUND PAC".data,
  "CLEAN VA FUND (PAC)".data]

/-- `extract_first_last_name` from the source: hyphens become spaces, title
suffixes (JR/SR/III/IV/V/JUNIOR/SENIOR) are pulled out, and only the first
and last remaining tokens are kept, followed by the suffixes. -/
def extract_first_last_name (name : List Char) : List Char :=
  if name.isEmpty then [] else
  let normalized := name.map (fun c => if c = '-' then ' ' else c)
  let parts := splitWs normalized
  if parts.length < 2 then name else
  let suffixes : List (List Char) :=
    ["JR".data, "SR".data, "III".data, "IV".data, "V".data, "JUNIOR".data, "SENIOR".data]
  let suffix_parts := parts.filter (fun p => suffixes.contains p)
  let name_parts := parts.filter (fun p => !suffixes.contains p)
  if name_parts.length < 2 then name else
  joinWith ' ' ([name_parts.headD [], name_parts.getLastD []] ++ suffix_parts)

/-- `normalize_name(name, is_individual)` from the source.  `is_individual`
is `True`/`False`/`None`, modelled by `Option Bool`. -/
def normalize_name (name : String) (is_individual : Option Bool) : String :=
  if name = "" then "" else
  let n0 := collapseWs (pyStrip (pyUpper name.data))
  let n1 :=
    if is_individual = some true then
      let t := TITLE_PATTERNS.foldl (fun acc p => subAll [p] [] acc) n0
      let t := dropLeadingNonWord t
      let t := dropTrailingNonWord t
      let t := pyStrip (collapseWs t)
      extract_first_last_name t
    else n0
  let n2 := subAll [pacPhrasePat] "PAC".data n1
  let n2 := subAll [wordPat "ASSOCIATION"] "ASSOC".data n2
  let n2 := subAll [wordPat "ASSN"] "ASSOC".data n2
  let n2 := subAll [wordPat "VIRGINIA"] "VA".data n2
  let n2 := subAll [wordPat "HIGHWAY"] "HWY".data n2
  let n3 :=
    if is_individual = some false then
      let p := n2.filter (fun c => isWordChar c || isPyWs c)
      let p := pyStrip (stripEndWord "PAC".data p)
      let p := pyStrip (stripEndWord "INC".data p)
      p
    else n2
  let n4 :=
    if EXACT_DOMINION_MATCHES.contains (pyStrip n3) then "DOMINION ENERGY".data
    else if isPrefixL "DOMINION ENERGY ".data n3 then "DOMINION ENERGY".data
    else if EXACT_CLEAN_VA_MATCHES.contains (pyStrip n3) then "CLEAN VA FUND".data
    else n3
  String.mk (pyStrip (collapseWs n4))

/-! ## Embedding of the office / district classifier
(`normalize_office_sought`, `normalize_district` in
`src/functions/name_normalization.py`) -/

/-- `re.sub(r'\s*-\s*.*$', '', s)`: cut at the first dash, dropping the
whitespace run immediately before it. -/
def cutAtDash (s : List Char) : List Char :=
  let pre := s.takeWhile (fun c => c ≠ '-')
  if pre.length = s.length then s
  else (pre.reverse.dropWhile isPyWs).reverse

/-- Everything after the first dash (`str.split('-', 1)[1]`). -/
def afterFirstDash (s : List Char) : List Char :=
  ((s.dropWhile (fun c => c ≠ '-')).drop 1)

/-- First maximal digit run (`re.findall(r'\d+', s)[0]`). -/
def firstDigitRun : List Char → Option (List Char)
  | [] => none
  | c :: rest =>
    if c.isDigit then some (c :: rest.takeWhile Char.isDigit)
    else firstDigitRun rest

/-- Digit run to `str(int(run))` (drops leading zeros). -/
def digitRunToCanon (run : List Char) : List Char :=
  (Nat.repr (run.foldl (fun n c => n * 10 + (c.toNat - 48)) 0)).data

/-- `normalize_office_sought` from the source. -/
def normalize_office_sought (office_sought : Option String) : Option String :=
  match office_sought with
  | none => none
  | some os =>
    let office := pyStrip (pyLower os.data)
    let oc := cutAtDash office
    let oc := subAll [wordPat "prince william county", wordPat "blue ridge district",
                      wordPat "arlington county", wordPat "at large"] [] oc
    let oc := pyStrip oc
    let oc := collapseWs oc
    let has : String → Bool := fun x => containsSub oc x.data
    some (String.mk (
      if oc = "hod".data ∨ oc = "h.o.d.".data then "delegate".data
      else if oc = "ag".data ∨ oc = "a.g.".data then "attorney general".data
      else if oc = "gov".data ∨ oc = "governor".data then "governor".data
      else if ["lt gov", "lt. gov", "lieutenant gov", "lieut gov", "lieu gov"].any
                (fun a => containsSub oc a.data) then "lieutenant governor".data
      else if has "delegate" || has "hod" then "delegate".data
      else if has "senator" || has "senate" then "senator".data
      else if has "governor" && !has "lieutenant" && !has "lt" then "governor".data
      else if (has "lieutenant" || has "lt") && has "governor" then "lieutenant governor".data
      else if (has "attorney" && has "general") || oc = "ag".data || oc = "a.g.".data then
        "attorney general".data
      else if has "treasurer" then "treasurer".data
      else if has "secretary" && has "commonwealth" then "secretary of the commonwealth".data
      else if (has "member" && has "county board") ||
              ((has "supervisor" || has "county board") && (has "chair" || has "chairman")) then
        "chair board of supervisors".data
      else if (has "member" && has "board") || has "supervisor" || has "county board" then
        "member board of supervisors".data
      else if has "school" && has "board" && (has "chair" || has "chairman") then
        "chair school board".data
      else if has "school" && has "board" then "school board".data
      else if has "city council" || has "town council" then "city council".data
      else if has "mayor" then "mayor".data
      else if has "sheriff" then "sheriff".data
      else if has "clerk" && has "court" then "clerk of court".data
      else if has "commonwealth" && has "attorney" then "commonwealth attorney".data
      else oc))

/-- The at-large markers from `normalize_district`. -/
def atLargeTerms : List String :=
  ["at large", "at-large", "atlarge", " al ", " al,", " al.", "at large"]

/-- `f"{city.strip()} (0)".title()`. -/
def cityZeroKey (city : String) : String :=
  String.mk (pyTitle (pyStrip city.data ++ " (0)".data))

/-- `normalize_district(district, candidate_city, level, office_sought)`
from the source. -/
def normalize_district (district candidate_city level office_sought : Option String) :
    Option String :=
  let office_sought_normal : Option String :=
    match office_sought with
    | some os => if os = "" then none else normalize_office_sought (some os)
    | none => none
  let at_large0 : Bool :=
    match office_sought with
    | some os => os ≠ "" && atLargeTerms.any (fun t => containsSub (pyLower os.data) t.data)
    | none => false
  let at_large : Bool := at_large0 ||
    (match district with
     | some d => d ≠ "" && atLargeTerms.any (fun t => containsSub (pyStrip (pyLower d.data)) t.data)
     | none => false)
  let suffix : List Char :=
    match office_sought with
    | some os =>
      if os ≠ "" && os.data.contains '-' then " - ".data ++ pyStrip (afterFirstDash os.data)
      else []
    | none => []
  let cityTruthy : Bool := match candidate_city with | some c => c ≠ "" | none => false
  if office_sought_normal = some "mayor" then
    if level = some "local" && cityTruthy then some (cityZeroKey (candidate_city.getD ""))
    else some "0"
  else if at_large then
    if level = some "local" && cityTruthy then some (cityZeroKey (candidate_city.getD ""))
    else some "0"
  else if district = none || pyStrip ((district.getD "").data) = [] then
    if level = some "local" && cityTruthy then some (cityZeroKey (candidate_city.getD ""))
    else if cityTruthy then some (String.mk (pyTitle (pyStrip ((candidate_city.getD "").data))))
    else none
  else
    let district_str := pyStrip ((district.getD "").data)
    match firstDigitRun district_str with
    | some run =>
      let dn := digitRunToCanon run
      let dn :=
        if level = some "local" && cityTruthy then
          (pyStrip ((candidate_city.getD "").data) ++ " (".data ++ dn ++ ")".data) ++ suffix
        else dn
      some (String.mk (pyTitle dn))
    | none =>
      if level = some "local" && cityTruthy then
        if !(district_str.any (fun c => c.isAlphanum)) then
          some (cityZeroKey (candidate_city.getD ""))
        else
          some (String.mk (pyTitle (pyStrip ((candidate_city.getD "").data) ++ " (".data ++
                district_str ++ ")".data)))
      else if district_str ≠ [] then some (String.mk (pyTitle district_str))
      else none

/-! ## Dates and the `datetime.strptime` formats used by the processors

CPython's `strptime` compiles each directive to a regex fragment
(`%Y` = four digits, `%m` = `1[0-2]|0[1-9]|[1-9]`, `%d` =
`3[01]|[12]\d|0[1-9]|[1-9]`, `%H` = `2[0-3]|[0-1]\d|\d`, `%M` = `[0-5]\d|\d`,
`%S` = `6[0-1]|[0-5]\d|\d`, `%f` = `[0-9]{1,6}` greedy, `%y` = two digits),
takes the first match of the whole backtracking search, raises on
unconverted trailing data, and then validates the values when the
`datetime` is constructed (day of month, seconds ≤ 59, 1 ≤ year ≤ 9999). -/

structure PyDate where
  y : Nat
  m : Nat
  d : Nat
deriving DecidableEq, Repr

/-- Lexicographic date comparison (`date.__le__`). -/
def dateLe (a b : PyDate) : Bool :=
  a.y < b.y || (a.y = b.y && (a.m < b.m || (a.m = b.m && a.d ≤ b.d)))

inductive FTok where
  | y4
  | y2
  | mon
  | day
  | hour
  | minute
  | second
  | frac
  | lit (c : Char)
deriving Repr

structure DTAcc where
  y : Nat := 1900
  m : Nat := 1
  d : Nat := 1
  s : Nat := 0
deriving Repr

def digitVal (c : Char) : Nat := c.toNat - 48

def keepAcc : DTAcc → DTAcc := fun a => a

/-- Candidates for one directive, in the regex's alternation order.  Each
candidate is an accumulator update paired with the remaining input. -/
def tokCands : FTok → List Char → List ((DTAcc → DTAcc) × List Char)
  | FTok.y4, a :: b :: c :: d :: rest =>
    if a.isDigit && b.isDigit && c.isDigit && d.isDigit then
      [(fun acc : DTAcc => ({ acc with y := ((digitVal a * 10 + digitVal b) * 10 + digitVal c) * 10 + digitVal d } : DTAcc), rest)]
    else []
  | FTok.y4, _ => []
  | FTok.y2, a :: b :: rest =>
    if a.isDigit && b.isDigit then
      [(fun acc : DTAcc =>
          let v := digitVal a * 10 + digitVal b
          { acc with y := if v ≤ 68 then v + 2000 else v + 1900 }, rest)]
    else []
  | FTok.y2, _ => []
  | FTok.mon, s =>
    (match s with
     | a :: b :: rest =>
       (if a = '1' && ('0' ≤ b && b ≤ '2') then
          [(fun acc : DTAcc => ({ acc with m := 10 + digitVal b } : DTAcc), rest)] else []) ++
       (if a = '0' && ('1' ≤ b && b ≤ '9') then
          [(fun acc : DTAcc => ({ acc with m := digitVal b } : DTAcc), rest)] else []) ++
       (if '1' ≤ a && a ≤ '9' then
          [(fun acc : DTAcc => ({ acc with m := digitVal a } : DTAcc), b :: rest)] else [])
     | [a] =>
       if '1' ≤ a && a ≤ '9' then [(fun acc : DTAcc => ({ acc with m := digitVal a } : DTAcc), [])] else []
     | [] => [])
  | FTok.day, s =>
    (match s with
     | a :: b :: rest =>
       (if a = '3' && ('0' ≤ b && b ≤ '1') then
          [(fun acc : DTAcc => ({ acc with d := 30 + digitVal b } : DTAcc), rest)] else []) ++
       (if ('1' ≤ a && a ≤ '2') && b.isDigit then
          [(fun acc : DTAcc => ({ acc with d := digitVal a * 10 + digitVal b } : DTAcc), rest)] else []) ++
       (if a = '0' && ('1' ≤ b && b ≤ '9') then
          [(fun acc : DTAcc => ({ acc with d := digitVal b } : DTAcc), rest)] else []) ++
       (if '1' ≤ a && a ≤ '9' then
          [(fun acc : DTAcc => ({ acc with d := digitVal a } : DTAcc), b :: rest)] else [])
     | [a] =>
       if '1' ≤ a && a ≤ '9' then [(fun acc : DTAcc => ({ acc with d := digitVal a } : DTAcc), [])] else []
     | [] => [])
  | FTok.hour, s =>
    (match s with
     | a :: b :: rest =>
       (if a = '2' && ('0' ≤ b && b ≤ '3') then [(keepAcc, rest)] else []) ++
       (if ('0' ≤ a && a ≤ '1') && b.isDigit then [(keepAcc, rest)] else []) ++
       (if a.isDigit then [(keepAcc, b :: rest)] else [])
     | [a] => if a.isDigit then [(keepAcc, [])] else []
     | [] => [])
  | FTok.minute, s =>
    (match s with
     | a :: b :: rest =>
       (if ('0' ≤ a && a ≤ '5') && b.isDigit then [(keepAcc, rest)] else []) ++
       (if a.isDigit then [(keepAcc, b :: rest)] else [])
     | [a] => if a.isDigit then [(keepAcc, [])] else []
     | [] => [])
  | FTok.second, s =>
    (match s with
     | a :: b :: rest =>
       (if a = '6' && ('0' ≤ b && b ≤ '1') then
          [(fun acc : DTAcc => ({ acc with s := 60 + digitVal b } : DTAcc), rest)] else []) ++
       (if ('0' ≤ a && a ≤ '5') && b.isDigit then
          [(fun acc : DTAcc => ({ acc with s := digitVal a * 10 + digitVal b } : DTAcc), rest)] else []) ++
       (if a.isDigit then [(fun acc : DTAcc => ({ acc with s := digitVal a } : DTAcc), b :: rest)] else [])
     | [a] => if a.isDigit then [(fun acc : DTAcc => ({ acc with s := digitVal a } : DTAcc), [])] else []
     | [] => [])
  | FTok.frac, s =>
    let run := (s.takeWhile Char.isDigit).length
    let maxTake := min run 6
    (List.range maxTake).map (fun i => (keepAcc, s.drop (maxTake - i)))
  | FTok.lit c, x :: rest => if x = c then [(keepAcc, rest)] else []
  | FTok.lit _, [] => []

/-- Depth-first run of a directive sequence; candidates appear in the
backtracking preference order of the compiled regex. -/
def runToks : List FTok → DTAcc → List Char → List (DTAcc × List Char)
  | [], acc, s => [(acc, s)]
  | t :: ts, acc, s =>
    (tokCands t s).flatMap (fun ur => runToks ts (ur.1 acc) ur.2)

def isLeapYear (y : Nat) : Bool := y % 4 = 0 && (y % 100 ≠ 0 || y % 400 = 0)

def daysInMonth (y m : Nat) : Nat :=
  if m = 2 then (if isLeapYear y then 29 else 28)
  else if m = 4 || m = 6 || m = 9 || m = 11 then 30
  else 31

def validDT (acc : DTAcc) : Bool :=
  1 ≤ acc.y && acc.y ≤ 9999 && acc.d ≤ daysInMonth acc.y acc.m && acc.s ≤ 59

/-- One `datetime.strptime(s, fmt)` attempt, returning the date part. -/
def strptime (toks : List FTok) (s : List Char) : Option PyDate :=
  match (runToks toks {} s).head? with
  | some (acc, []) => if validDT acc then some ⟨acc.y, acc.m, acc.d⟩ else none
  | _ => none

def fmtYmd : List FTok := [FTok.y4, FTok.lit '-', FTok.mon, FTok.lit '-', FTok.day]
def fmtMdY : List FTok := [FTok.mon, FTok.lit '/', FTok.day, FTok.lit '/', FTok.y4]
def fmtMdy : List FTok := [FTok.mon, FTok.lit '/', FTok.day, FTok.lit '/', FTok.y2]
def fmtHMS : List FTok := [FTok.lit ' ', FTok.hour, FTok.lit ':', FTok.minute, FTok.lit ':', FTok.second]
def fmtYmdHMS : List FTok := fmtYmd ++ fmtHMS
def fmtYmdHMSf : List FTok := fmtYmdHMS ++ [FTok.lit '.', FTok.frac]
def fmtMdYHMS : List FTok := fmtMdY ++ fmtHMS

/-- First format that parses. -/
def tryFormats : List (List FTok) → List Char → Option PyDate
  | [], _ => none
  | f :: fs, s =>
    match strptime f s with
    | some d => some d
    | none => tryFormats fs s

/-! ## Embedding of `_determine_on_time_status`
(`src/processors/ScheduleABCDFI_processor.py`) and of
`src/filing_deadlines.py` -/

/-- The microsecond-truncation preprocessing of the processor's `to_date`. -/
def truncMicro (s : List Char) : List Char :=
  let parts := splitOnChar '.' s
  if parts.length ≥ 2 && (parts.getLastD []).length > 6 then
    parts.headD [] ++ '.' :: (parts.getD 1 []).take 6
  else s

/-- `to_date` from `_determine_on_time_status`: strip, truncate long
microseconds, then try `%Y-%m-%d`, `%m/%d/%Y`, `%Y-%m-%d %H:%M:%S`,
`%Y-%m-%d %H:%M:%S.%f`, `%m/%d/%y` in that order.  Inputs are modelled as
strings (the `datetime` instance branch of the source is out of scope). -/
def to_date (val : Option String) : Option PyDate :=
  match val with
  | none => none
  | some v =>
    if v = "" then none
    else tryFormats [fmtYmd, fmtMdY, fmtYmdHMS, fmtYmdHMSf, fmtMdy] (truncMicro (pyStrip v.data))

structure FilingPeriod where
  filingPeriodStart : String
  filingPeriodEnd : String
  filingPeriodDeadline : String
  onCycle : Bool
deriving DecidableEq, Repr

/-- `FILING_PERIODS_2024` from `src/filing_deadlines.py`, in source order. -/
def FILING_PERIODS_2024 : List FilingPeriod := [
  ⟨"2024-01-01", "2024-06-30", "2024-07-15", false⟩,
  ⟨"2024-07-01", "2024-12-31", "2025-01-15", false⟩,
  ⟨"2024-01-01", "2024-03-31", "2024-04-15", true⟩,
  ⟨"2024-04-01", "2024-06-06", "2024-06-10", true⟩,
  ⟨"2024-06-07", "2024-06-30", "2024-07-15", true⟩,
  ⟨"2024-07-01", "2024-08-31", "2024-09-16", true⟩,
  ⟨"2024-09-01", "2024-09-30", "2024-10-15", true⟩,
  ⟨"2024-10-01", "2024-10-24", "2024-10-28", true⟩,
  ⟨"2024-10-25", "2024-11-28", "2024-12-05", true⟩,
  ⟨"2024-11-29", "2024-12-31", "2025-01-15", true⟩,
  ⟨"2024-06-07", "2024-06-17", "2024-06-17", true⟩,
  ⟨"2024-10-25", "2024-11-04", "2024-11-04", true⟩]

/-- `_generate_generic_filing_periods(year)`. -/
def generic_filing_periods (year : Int) : List FilingPeriod := [
  ⟨toString year ++ "-01-01", toString year ++ "-06-30", toString year ++ "-07-15", false⟩,
  ⟨toString year ++ "-07-01", toString year ++ "-12-31", toString (year + 1) ++ "-01-15", false⟩]

/-- `get_filing_periods_for_year`: the year dictionary holds the curated 2024
calendar and generic periods for every other year from 1999 to 2025, and
`.get`'s default produces the same generic periods for all remaining years,
so extensionally the lookup is `2024 ↦ curated, _ ↦ generic`. -/
def get_filing_periods_for_year (year : Int) : List FilingPeriod :=
  if year = 2024 then FILING_PERIODS_2024 else generic_filing_periods year

/-- Election year from `election_cycle` (digits after the last `/`, or the
whole value), `None`/empty/unparseable giving `none`. -/
def election_year_of (election_cycle : Option String) : Option Int :=
  match election_cycle with
  | none => none
  | some s =>
    if s = "" then none
    else if s.data.contains '/' then pyInt ((splitOnChar '/' s.data).getLastD [])
    else pyInt s.data

/-- `(report_year_int == election_year) if election_year else False`
(Python truthiness: `None` and `0` are falsy). -/
def is_on_cycle_for (report_year : Int) (ey : Option Int) : Bool :=
  match ey with
  | none => false
  | some e => if e = 0 then false else report_year = e

/-- The filing-period scan loop of `_determine_on_time_status`: the first
window (in list order) with parseable dates that contains the transaction
date and matches the cycle flag decides `report_date <= deadline`;
otherwise the result is `False`. -/
def scanPeriods (txd rpd : PyDate) (isOn : Bool) : List FilingPeriod → Option Bool
  | [] => some false
  | p :: rest =>
    match to_date (some p.filingPeriodStart), to_date (some p.filingPeriodEnd),
          to_date (some p.filingPeriodDeadline) with
    | some s, some e, some dl =>
      if dateLe s txd && dateLe txd e then
        if (isOn && p.onCycle) || (!isOn && !p.onCycle) then some (dateLe rpd dl)
        else scanPeriods txd rpd isOn rest
      else scanPeriods txd rpd isOn rest
    | _, _, _ => scanPeriods txd rpd isOn rest

def falsyStr (o : Option String) : Bool :=
  match o with
  | none => true
  | some s => s = ""

/-- `_determine_on_time_status(transaction_date, reported_date,
election_cycle, report_year)`.  All four inputs are modelled as optional
strings (`None` or the CSV field).  The source computes `is_on_cycle`
inside the loop body; its value does not depend on the period, so it is
computed once here. -/
def determine_on_time_status
    (transaction_date reported_date election_cycle report_year : Option String) : Option Bool :=
  if falsyStr transaction_date || falsyStr reported_date || falsyStr report_year then none
  else
    match to_date transaction_date, to_date reported_date with
    | some txd, some rpd =>
      match pyInt ((report_year.getD "").data) with
      | none => none
      | some yr =>
        scanPeriods txd rpd (is_on_cycle_for yr (election_year_of election_cycle))
          (get_filing_periods_for_year yr)
    | _, _ => none

/-! ## Embedding of `src/processors/amendment_processor.py`

Rows are modelled with the columns the function reads plus `report_date`
and `due_date` as representative carried-through columns.  `pd.to_numeric`
coercion is modelled by taking the numeric inputs as already-coerced
optional numbers; exact rationals stand in for float64 amounts.  The fuzzy
scorer (`fuzz.ratio`) is an external library and is taken as a parameter
`sim`; it is only consulted when the cleaned names differ. -/

/-- `parse_transaction_date`: strip, then `%m/%d/%Y`, `%Y-%m-%d`, `%m/%d/%y`,
`%Y-%m-%d %H:%M:%S`, `%m/%d/%Y %H:%M:%S` in that order. -/
def parse_transaction_date (date_str : Option String) : Option PyDate :=
  match date_str with
  | none => none
  | some v =>
    if v = "" then none
    else tryFormats [fmtMdY, fmtYmd, fmtMdy, fmtYmdHMS, fmtMdYHMS] (pyStrip v.data)

/-- Cumulative days before month `m`. -/
def cumDays (leap : Bool) (m : Nat) : Nat :=
  [0, 31, 59, 90, 120, 151, 181, 212, 243, 273, 304, 334].getD (m - 1) 0 +
    (if leap && m > 2 then 1 else 0)

/-- Proleptic Gregorian day number, for `(date1 - date2).days`. -/
def rataDie (dt : PyDate) : Int :=
  ((365 * (dt.y - 1) + (dt.y - 1) / 4 - (dt.y - 1) / 100 + (dt.y - 1) / 400 +
    cumDays (isLeapYear dt.y) dt.m + dt.d : Nat) : Int)

/-- `dates_within_month`: both dates parsed and at most 30 days apart. -/
def dates_within_month (d1 d2 : Option PyDate) : Bool :=
  match d1, d2 with
  | some a, some b => (rataDie a - rataDie b).natAbs ≤ 30
  | _, _ => false

/-- `fuzzy_name_match(name1, name2, threshold)`: empty names compare by
equality; otherwise names are stripped and uppercased, equal strings match,
and the external scorer decides the rest. -/
def fuzzy_name_match (sim : String → String → Nat) (threshold : Nat) (n1 n2 : String) : Bool :=
  if n1 = "" || n2 = "" then n1 = n2
  else
    let c1 := pyUpper (pyStrip n1.data)
    let c2 := pyUpper (pyStrip n2.data)
    if c1 = c2 then true
    else sim (String.mk c1) (String.mk c2) ≥ threshold

/-- A raw row of the amendments table (the columns the function touches). -/
structure ATxn where
  committee_code : Option String
  entity_name_normalized : Option String
  amount : Option ℚ
  amendment_count : Option Int
  transaction_date : Option String
  zip_code : Option String
  committee_type : Option String
  transaction_type : Option String
  entity_is_individual : Option String
  entity_zip : Option String
  schedule_type : Option String
  primary_or_general : Option String
  office_sought_normal : Option String
  district_normal : Option String
  report_date : Option String
  due_date : Option String
deriving DecidableEq, Repr

/-- A row after the `fillna` cleaning of `get_latest_amendments`. -/
structure ATxnClean where
  committee_code : String
  entity_name_normalized : String
  amount : ℚ
  amendment_count : Int
  transaction_date : Option String
  zip_code : Option String
  committee_type : Option String
  transaction_type : Option String
  entity_is_individual : Option String
  entity_zip : Option String
  schedule_type : Option String
  primary_or_general : Option String
  office_sought_normal : Option String
  district_normal : Option String
  report_date : Option String
  due_date : Option String
deriving DecidableEq, Repr

def cleanTxn (t : ATxn) : ATxnClean :=
  { committee_code := t.committee_code.getD "UNKNOWN"
    entity_name_normalized := t.entity_name_normalized.getD "UNKNOWN"
    amount := t.amount.getD 0
    amendment_count := t.amendment_count.getD 0
    transaction_date := t.transaction_date
    zip_code := t.zip_code
    committee_type := t.committee_type
    transaction_type := t.transaction_type
    entity_is_individual := t.entity_is_individual
    entity_zip := t.entity_zip
    schedule_type := t.schedule_type
    primary_or_general := t.primary_or_general
    office_sought_normal := t.office_sought_normal
    district_normal := t.district_normal
    report_date := t.report_date
    due_date := t.due_date }

/-- Round a rational to cents, half to even (numpy `round(2)`). -/
def roundHalfEvenZ (q : ℚ) : ℤ :=
  let f := ⌊q⌋
  let r := q - f
  if r < 1 / 2 then f
  else if 1 / 2 < r then f + 1
  else if f % 2 = 0 then f else f + 1

def round2 (q : ℚ) : ℚ := (roundHalfEvenZ (q * 100) : ℚ) / 100

/-- The helper column `parsed_date`. -/
def parsedDateOf (t : ATxnClean) : Option PyDate :=
  parse_transaction_date t.transaction_date

/-- The consolidation group key (`groupby` columns, `fillna('')` applied to
the categorical fields, amounts rounded to cents, dates bucketed to the
first of the month). -/
structure AKey where
  cc : String
  nameClean : String
  amtRounded : ℚ
  dateGroup : Option PyDate
  z : String
  ct : String
  tt : String
  ii : String
  ez : String
  st : String
  pg : String
  os : String
  dn : String
deriving DecidableEq, Repr

def keyOf (t : ATxnClean) : AKey :=
  { cc := t.committee_code
    nameClean := String.mk (pyUpper (pyStrip t.entity_name_normalized.data))
    amtRounded := round2 t.amount
    dateGroup := (parsedDateOf t).map (fun d => { d with d := 1 })
    z := t.zip_code.getD ""
    ct := t.committee_type.getD ""
    tt := t.transaction_type.getD ""
    ii := t.entity_is_individual.getD ""
    ez := t.entity_zip.getD ""
    st := t.schedule_type.getD ""
    pg := t.primary_or_general.getD ""
    os := t.office_sought_normal.getD ""
    dn := t.district_normal.getD "" }

/-- Group keys in first-occurrence order.  (pandas emits groups in sorted
key order, which only permutes the groups; the retained row set and the
final explicit sort are unaffected.) -/
def keysInOrder (rows : List (Nat × ATxnClean)) : List AKey :=
  rows.foldl (fun ks r => if ks.contains (keyOf r.2) then ks else ks ++ [keyOf r.2]) []

def groupsInOrder (rows : List (Nat × ATxnClean)) : List (List (Nat × ATxnClean)) :=
  (keysInOrder rows).map (fun k => rows.filter (fun r => keyOf r.2 = k))

/-- The `similar_mask` of one iteration: the mask starts all-`True` and is
cleared only for rows `j` with `j ≠ i`, `j ∉ processed` and a failed
name-and-date match, so previously processed rows always stay selected. -/
def similarRows (sim : String → String → Nat) (th : Nat) (g : List (Nat × ATxnClean))
    (processed : List Nat) (i : Nat) (ri : ATxnClean) : List (Nat × ATxnClean) :=
  g.filter (fun jr =>
    jr.1 = i || processed.contains jr.1 ||
    (fuzzy_name_match sim th ri.entity_name_normalized jr.2.entity_name_normalized &&
     dates_within_month (parsedDateOf ri) (parsedDateOf jr.2)))

/-- The greedy loop over one group (`for i, row1 in group_df.iterrows()`). -/
def processGroupAux (sim : String → String → Nat) (th : Nat) (g : List (Nat × ATxnClean)) :
    List (Nat × ATxnClean) → List Nat → List Nat → List Nat
  | [], _, latest => latest
  | (i, ri) :: rest, processed, latest =>
    if processed.contains i then processGroupAux sim th g rest processed latest
    else
      let similar := similarRows sim th g processed i ri
      if similar.length > 1 then
        let maxA := ((similar.map (fun r => r.2.amendment_count)).max?).getD 0
        let keep := (similar.filter (fun r => r.2.amendment_count = maxA)).map (fun r => r.1)
        processGroupAux sim th g rest (processed ++ similar.map (fun r => r.1)) (latest ++ keep)
      else processGroupAux sim th g rest (processed ++ [i]) (latest ++ [i])

def processGroup (sim : String → String → Nat) (th : Nat) (g : List (Nat × ATxnClean)) : List Nat :=
  if g.length = 1 then g.map (fun r => r.1)
  else processGroupAux sim th g g [] []

/-- `drop_duplicates()`: keep the first occurrence of each identical row. -/
def dropDupsAux : List ATxnClean → List ATxnClean → List ATxnClean
  | _, [] => []
  | seen, r :: rest =>
    if seen.contains r then dropDupsAux seen rest
    else r :: dropDupsAux (seen ++ [r]) rest

def dropDupsFirst (l : List ATxnClean) : List ATxnClean := dropDupsAux [] l

/-- `sort_values(['committee_code', 'entity_name_normalized', 'amount',
'amendment_count'])`, as a stable sort (pandas' quicksort may permute
equal keys; no claim below depends on that order). -/
def txnKeyLt (a b : ATxnClean) : Bool :=
  decide (a.committee_code < b.committee_code) ||
  (a.committee_code = b.committee_code &&
    (decide (a.entity_name_normalized < b.entity_name_normalized) ||
     (a.entity_name_normalized = b.entity_name_normalized &&
       (a.amount < b.amount ||
        (a.amount = b.amount && a.amendment_count < b.amendment_count)))))

def insertTxn (x : ATxnClean) : List ATxnClean → List ATxnClean
  | [] => [x]
  | y :: rest => if txnKeyLt x y then x :: y :: rest else y :: insertTxn x rest

def sortTxns : List ATxnClean → List ATxnClean
  | [] => []
  | x :: rest => insertTxn x (sortTxns rest)

/-- `get_latest_amendments(df, fuzzy_threshold)`. -/
def get_latest_amendments (sim : String → String → Nat) (th : Nat) (df : List ATxn) :
    List ATxnClean :=
  if df.isEmpty then [] else
  let rows := (df.map cleanTxn).enum
  let latest := (groupsInOrder rows).foldl (fun acc g => acc ++ processGroup sim th g) []
  let latestRows := latest.filterMap (fun i => (rows.find? (fun r => r.1 = i)).map (fun r => r.2))
  sortTxns (dropDupsFirst latestRows)

/-! ## Embedding of the near-duplicate suppressor
(`deduplicate_records` in `src/schedulea-e-production_test.py`)

Records are Python dicts; they are modelled with a fixed schema holding
every field the function reads plus two representative carried-through
fields (`committee_code`, `schedule_type`).  `get_record_hash` MD5-hashes
the sorted `key:value` rendering of a record; the hash is modelled by the
rendered string itself (equal renderings give equal hashes, and the code
treats hash equality as record equality). -/

structure NDRec where
  amount : Option String
  candidate_name : Option String
  committee_code : Option String
  donor_name : Option String
  entity_name : Option String
  folder_name : Option String
  ontime : Option String
  payee_name : Option String
  recipient_name : Option String
  report_date : Option String
  reportid : Option String
  schedule_type : Option String
  transaction_date : Option String
  vendor_name : Option String
deriving DecidableEq, Repr

/-- The schema in sorted key order (`for key, value in sorted(record.items())`). -/
def ndFields : List (String × (NDRec → Option String)) := [
  ("amount", NDRec.amount),
  ("candidate_name", NDRec.candidate_name),
  ("committee_code", NDRec.committee_code),
  ("donor_name", NDRec.donor_name),
  ("entity_name", NDRec.entity_name),
  ("folder_name", NDRec.folder_name),
  ("ontime", NDRec.ontime),
  ("payee_name", NDRec.payee_name),
  ("recipient_name", NDRec.recipient_name),
  ("report_date", NDRec.report_date),
  ("reportid", NDRec.reportid),
  ("schedule_type", NDRec.schedule_type),
  ("transaction_date", NDRec.transaction_date),
  ("vendor_name", NDRec.vendor_name)]

/-- `str(value) if value is not None else "NULL"`. -/
def hashVal : Option String → List Char
  | some s => s.data
  | none => "NULL".data

/-- `get_record_hash(record)` (no excluded fields at the call site),
modelled by the record string that is hashed. -/
def get_record_hash (r : NDRec) : List Char :=
  joinWith '|' (ndFields.map (fun kf => kf.1.data ++ ':' :: hashVal (kf.2 r)))

/-- `count_field_differences(record1, record2, exclude_fields)`. -/
def count_field_differences (r1 r2 : NDRec) (excl : List String) : Nat :=
  ndFields.foldl
    (fun n kf => if excl.contains kf.1 then n else if kf.2 r1 ≠ kf.2 r2 then n + 1 else n) 0

/-- Step 1: exact duplicate removal, first hash occurrence kept. -/
def ndExactAux : List (List Char) → List NDRec → List NDRec
  | _, [] => []
  | seen, r :: rest =>
    if seen.contains (get_record_hash r) then ndExactAux seen rest
    else r :: ndExactAux (seen ++ [get_record_hash r]) rest

def ndExact (l : List NDRec) : List NDRec := ndExactAux [] l

/-- `f"{value}"` on a possibly-`None` field (`str(None) = "None"`). -/
def fStr : Option String → List Char
  | some s => s.data
  | none => "None".data

/-- The counter-party field chain
`entity_name or recipient_name or donor_name or payee_name or vendor_name`
(Python `or` skips `None` and empty strings). -/
def ndEntity (r : NDRec) : Option String :=
  match r.entity_name with
  | some s => if s ≠ "" then some s else
    match r.recipient_name with
    | some s2 => if s2 ≠ "" then some s2 else
      match r.donor_name with
      | some s3 => if s3 ≠ "" then some s3 else
        match r.payee_name with
        | some s4 => if s4 ≠ "" then some s4 else r.vendor_name
        | none => r.vendor_name
      | none =>
        match r.payee_name with
        | some s4 => if s4 ≠ "" then some s4 else r.vendor_name
        | none => r.vendor_name
    | none =>
      match r.donor_name with
      | some s3 => if s3 ≠ "" then some s3 else
        match r.payee_name with
        | some s4 => if s4 ≠ "" then some s4 else r.vendor_name
        | none => r.vendor_name
      | none =>
        match r.payee_name with
        | some s4 => if s4 ≠ "" then some s4 else r.vendor_name
        | none => r.vendor_name
  | none =>
    match r.recipient_name with
    | some s2 => if s2 ≠ "" then some s2 else
      match r.donor_name with
      | some s3 => if s3 ≠ "" then some s3 else
        match r.payee_name with
        | some s4 => if s4 ≠ "" then some s4 else r.vendor_name
        | none => r.vendor_name
      | none =>
        match r.payee_name with
        | some s4 => if s4 ≠ "" then some s4 else r.vendor_name
        | none => r.vendor_name
    | none =>
      match r.donor_name with
      | some s3 => if s3 ≠ "" then some s3 else
        match r.payee_name with
        | some s4 => if s4 ≠ "" then some s4 else r.vendor_name
        | none => r.vendor_name
      | none =>
        match r.payee_name with
        | some s4 => if s4 ≠ "" then some s4 else r.vendor_name
        | none => r.vendor_name

/-- `group_key = f"{amount}|{transaction_date}|{candidate_name}|{entity}"`. -/
def ndGroupKey (r : NDRec) : List Char :=
  fStr r.amount ++ '|' :: fStr r.transaction_date ++ '|' :: fStr r.candidate_name ++
    '|' :: fStr (ndEntity r)

/-- Group keys in insertion order (Python dict semantics). -/
def ndKeysInOrder (rows : List NDRec) : List (List Char) :=
  rows.foldl (fun ks r => if ks.contains (ndGroupKey r) then ks else ks ++ [ndGroupKey r]) []

/-- The flexible fields plus the bucket-key fields, as excluded in step 3. -/
def extendedFlexibleFields : List String :=
  ["reportid", "report_date", "ontime", "folder_name",
   "amount", "transaction_date", "candidate_name", "entity_name", "recipient_name",
   "donor_name", "payee_name", "vendor_name"]

/-- The greedy in-group pass: a record joins `group_unique` unless it is
within 2 differing fields of an already kept record. -/
def ndGroupUnique (g : List NDRec) : List NDRec :=
  g.foldl
    (fun uniq r =>
      if uniq.any (fun e => count_field_differences r e extendedFlexibleFields ≤ 2) then uniq
      else uniq ++ [r]) []

/-- `deduplicate_records(records)`. -/
def deduplicate_records (records : List NDRec) : List NDRec :=
  if records.isEmpty then records else
  let exact := ndExact records
  let groups := (ndKeysInOrder exact).map (fun k => exact.filter (fun r => ndGroupKey r = k))
  groups.foldl (fun acc g => if g.length = 1 then acc ++ g else acc ++ ndGroupUnique g) []

/-! ## Embedding of the entity/committee resolver
(`find_matching_committee_batch` and `select_closest_committee_by_year` in
`src/python_analysis_scripts/unmatched_contributions_analysis_optimized.py`)

The lookup tables are dictionaries keyed by exact strings; they are
modelled as association lists with unique keys in insertion order.  The
batch loop handles each recipient independently; the per-recipient logic
is embedded. -/

structure Committee where
  committee_code : Option String
  committee_name_normalized : String
  candidate_name_normalized : String
deriving DecidableEq, Repr

/-- First association-list hit (dict lookup). -/
def lookupL {α : Type} (k : String) : List (String × α) → Option α
  | [] => none
  | (k2, v) :: rest => if k = k2 then some v else lookupL k rest

/-- Year encoded in a committee code: `re.match(r'CC-(\d{2})-', code)`,
two-digit years below 50 mapping to 2000+, the rest to 1900+. -/
def committee_code_year (code : String) : Option Int :=
  match code.data with
  | 'C' :: 'C' :: '-' :: a :: b :: '-' :: _ =>
    if a.isDigit && b.isDigit then
      let yy := digitVal a * 10 + digitVal b
      some (if yy < 50 then (2000 + yy : Int) else (1900 + yy : Int))
    else none
  | _ => none

/-- Year of a committee, skipping missing codes (`pd.isna`). -/
def committee_year_of (c : Committee) : Option Int :=
  match c.committee_code with
  | none => none
  | some code => committee_code_year code

/-- The loop state fold of `select_closest_committee_by_year`: the running
best is replaced only on a strictly smaller year difference. -/
def selGo (fy : Int) : List Committee → Option (Committee × Nat) → Option (Committee × Nat)
  | [], st => st
  | c :: rest, st =>
    match committee_year_of c with
    | none => selGo fy rest st
    | some y =>
      let d := (fy - y).natAbs
      match st with
      | none => selGo fy rest (some (c, d))
      | some (b, m) => if d < m then selGo fy rest (some (c, d)) else selGo fy rest (some (b, m))

/-- `select_closest_committee_by_year(committees_list, filing_year)`. -/
def select_closest_committee_by_year (l : List Committee) (fy : Int) : Option Committee :=
  (selGo fy l none).map (fun p => p.1)

/-- The year differences of the committees whose code matches the pattern. -/
def selDiffs (fy : Int) (l : List Committee) : List Nat :=
  l.filterMap (fun c => (committee_year_of c).map (fun y => (fy - y).natAbs))

/-- Whether a committee's year difference is minimal among `ds`. -/
def specPred (fy : Int) (ds : List Nat) (c : Committee) : Bool :=
  match committee_year_of c with
  | none => false
  | some y => ds.all (fun d => (fy - y).natAbs ≤ d)

/-- The specification wording of §4.6 / the year-proximity testable
property: among the committees whose code matches the `CC-YY-` pattern,
select the first one whose encoded year has the smallest absolute
difference from the filing year (ties keep the first encountered);
committees without a matching code are ignored. -/
def select_closest_spec (l : List Committee) (fy : Int) : Option Committee :=
  l.find? (specPred fy (selDiffs fy l))

/-- Steps 1–2 of the per-recipient lookup: clean the raw name, try the
`name_variations` table (a hit there is final, even if the mapped
canonical name has no committee), otherwise try the committee index
directly. -/
def find_matching_committee (name_variations : List (String × String))
    (normalized_to_committee : List (String × Committee))
    (recipient_name : Option String) : Option Committee :=
  match recipient_name with
  | none => none
  | some rn =>
    if rn = "" || pyStrip rn.data = [] then none
    else
      let clean := String.mk (pyStrip (pyLower rn.data))
      if clean = "" then none
      else
        match lookupL clean name_variations with
        | some normalized => lookupL (String.mk (pyLower normalized.data)) normalized_to_committee
        | none => lookupL clean normalized_to_committee

/-- All committees of the matched candidate, in table order. -/
def candidate_committees (committee_mappings : List (String × Committee)) (m : Committee) :
    List Committee :=
  (committee_mappings.map (fun kv => kv.2)).filter
    (fun c => c.candidate_name_normalized = m.candidate_name_normalized)

/-- The tail of the per-recipient loop body: when the matched candidate has
more than one committee, disambiguate by year proximity, falling back to
the committee found by name lookup when the selection returns nothing. -/
def resolve_committee (name_variations : List (String × String))
    (normalized_to_committee : List (String × Committee))
    (committee_mappings : List (String × Committee))
    (recipient_name : Option String) (filing_year : Int) : Option Committee :=
  match find_matching_committee name_variations normalized_to_committee recipient_name with
  | none => none
  | some m =>
    let cands := candidate_committees committee_mappings m
    if cands.length > 1 then
      match select_closest_committee_by_year cands filing_year with
      | some best => some best
      | none => some m
    else some m

/-! ## Auxiliary definitions used by the theorems -/

/-- The report-year parse of `_determine_on_time_status`: falsy values and
`int()` failures both yield `none`. -/
def report_year_of (ry : Option String) : Option Int :=
  match ry with
  | none => none
  | some s => if s = "" then none else pyInt s.data

/-- Whether one filing period decides the scan for a transaction date and
cycle flag: all three period dates parse, the window contains the date,
and the `onCycle` flag matches. -/
def period_applies (txd : PyDate) (isOn : Bool) (p : FilingPeriod) : Bool :=
  match to_date (some p.filingPeriodStart), to_date (some p.filingPeriodEnd),
        to_date (some p.filingPeriodDeadline) with
  | some s, some e, some _ =>
    dateLe s txd && dateLe txd e && ((isOn && p.onCycle) || (!isOn && !p.onCycle))
  | _, _, _ => false

/-- Proof auxiliary: structural version of the year-proximity fold,
returning the best committee together with its year difference. -/
def selPick (fy : Int) : List Committee → Option (Committee × Nat)
  | [] => none
  | c :: rest =>
    match committee_year_of c with
    | none => selPick fy rest
    | some y =>
      let d := (fy - y).natAbs
      match selPick fy rest with
      | none => some (c, d)
      | some (b, m) => if m < d then some (b, m) else some (c, d)

/-- Proof auxiliary: merging a running best with the best of a tail. -/
def selMerge (p : Committee × Nat) : Option (Committee × Nat) → Option (Committee × Nat)
  | none => some p
  | some (c, d) => if d < p.2 then some (c, d) else some p

/-! ### Concrete records used by the claim theorems and witnesses -/

/-- An amendment-table row with an unparseable transaction date and
amendment count 5. -/
def amA : ATxn :=
  ⟨some "CC-1", some "ACME", some 10, some 5, some "garbage", none, none, none, none, none,
   none, none, none, none, some "2020-01-01", none⟩

/-- Identical to `amA` except `amendment_count = 3` and a different
`report_date`; shares the full consolidation group key with `amA`
(same committee, name, amount, `None` month bucket, categorical fields),
but is not date-proximate to it, so it forms its own singleton cluster. -/
def amB : ATxn :=
  ⟨some "CC-1", some "ACME", some 10, some 3, some "garbage", none, none, none, none, none,
   none, none, none, none, some "2020-02-02", none⟩

/-- Near-duplicate example: base record. -/
def ndr1 : NDRec :=
  ⟨some "100.00", some "SMITH", some "CC-1", none, some "ACME", some "batch1", some "true",
   none, none, some "2024-01-15", some "R1", some "ScheduleA", some "2024-01-01", none⟩

/-- `ndr1` with only `report_date` and `folder_name` changed. -/
def ndr2 : NDRec :=
  ⟨some "100.00", some "SMITH", some "CC-1", none, some "ACME", some "batch2", some "true",
   none, none, some "2024-02-15", some "R1", some "ScheduleA", some "2024-01-01", none⟩

/-- `ndr1` with only `amount` changed by two cents. -/
def ndr3 : NDRec :=
  ⟨some "100.02", some "SMITH", some "CC-1", none, some "ACME", some "batch1", some "true",
   none, none, some "2024-01-15", some "R1", some "ScheduleA", some "2024-01-01", none⟩

/-- Year-proximity example committees (`CC-18-001` and `CC-22-001`). -/
def cme18 : Committee := ⟨some "CC-18-001", "old joe committee", "JOE SMITH"⟩

def cme22 : Committee := ⟨some "CC-22-001", "new joe committee", "JOE SMITH"⟩

/-- Resolver example: the committee found by name lookup. -/
def cmeMatched : Committee := ⟨some "ZZZ", "joe for senate", "JOE SMITH"⟩

/-- Resolver example: sibling committees of the same candidate, none of
whose codes matches the `CC-YY-` pattern. -/
def cmeNoPat1 : Committee := ⟨some "AB-12-001", "joe one", "JOE SMITH"⟩

def cmeNoPat2 : Committee := ⟨none, "joe two", "JOE SMITH"⟩

def rsvNameVariations : List (String × String) := []

def rsvNormalizedToCommittee : List (String × Committee) := [("joe for senate", cmeMatched)]

def rsvCommitteeMappings : List (String × Committee) :=
  [("AB-12-001", cmeNoPat1), ("B2", cmeNoPat2)]

/-! ## Theorems -/

/-- Claim C1 (code bug).  The spec requires `normalize` to be an idempotent
projection for every input and flag, but in organization mode
(`is_individual = False`) the input `"FOO PAC INC"` normalizes once to
`"FOO PAC"` (the trailing `INC` strip exposes a trailing `PAC`), and
normalizing that output again strips the now-trailing `PAC`, giving
`"FOO"`: `normalize(normalize(x)) ≠ normalize(x)`. -/
theorem C1_org_mode_idempotence_fails :
    normalize_name "FOO PAC INC" (some false) = "FOO PAC" ∧
    normalize_name (normalize_name "FOO PAC INC" (some false)) (some false) = "FOO" ∧
    normalize_name (normalize_name "FOO PAC INC" (some false)) (some false) ≠
      normalize_name "FOO PAC INC" (some false) := by
  refine ⟨by decide, by decide, by decide⟩

/-- Claim C8 (confirmed).  The district normalizer maps an at-large mayoral
race to district key `"0"` prefixed with the title-cased city:
`normalize_district("At-Large", city="Richmond", level="local",
office="Mayor")` returns exactly `"Richmond (0)"`. -/
theorem C8_at_large_mayor_district :
    normalize_district (some "At-Large") (some "Richmond") (some "local") (some "Mayor") =
      some "Richmond (0)" := by
  decide

/-- Claim C2 (code bug).  `amA` and `amB` share the full consolidation
group key (their unparseable transaction dates put both in the `None`
month bucket), but are not date-proximate, so each forms its own singleton
cluster; the claim then requires both to be retained.  Because the
`similar_mask` of the greedy loop is never cleared for already-processed
rows, the iteration for `amB` pulls the already-kept `amA` (amendment
count 5) into `amB`'s similarity set and discards `amB` (count 3), for
every fuzzy scorer. -/
theorem C2_singleton_cluster_member_dropped :
    ∀ sim : String → String → Nat,
      get_latest_amendments sim 85 [amA, amB] = [cleanTxn amA] ∧
      cleanTxn amB ∉ get_latest_amendments sim 85 [amA, amB] := by
  intro sim
  have h : get_latest_amendments sim 85 [amA, amB] = [cleanTxn amA] := by
    with_unfolding_all rfl
  refine ⟨h, ?_⟩
  rw [h]
  decide

section YearProximity

theorem selGo_some (fy : Int) (l : List Committee) : ∀ p : Committee × Nat,
    selGo fy l (some p) = selMerge p (selPick fy l) := by
  induction l with
  | nil => intro p; rfl
  | cons c t ih =>
    intro p
    obtain ⟨b, m⟩ := p
    cases hc : committee_year_of c with
    | none => simp only [selGo, selPick, hc]; exact ih (b, m)
    | some y =>
      simp only [selGo, selPick, hc]
      rw [ih (c, (fy - y).natAbs), ih (b, m)]
      cases hp : selPick fy t with
      | none =>
        dsimp only
        simp only [selMerge]
      | some q =>
        obtain ⟨e, k⟩ := q
        dsimp only
        by_cases hkd : k < (fy - y).natAbs
        · rw [if_pos hkd]
          simp only [selMerge]
          split_ifs <;> first | rfl | omega
        · rw [if_neg hkd]
          simp only [selMerge]
          split_ifs <;> first | rfl | omega

theorem selGo_none (fy : Int) (l : List Committee) : selGo fy l none = selPick fy l := by
  induction l with
  | nil => rfl
  | cons c t ih =>
    cases hc : committee_year_of c with
    | none => simp only [selGo, selPick, hc]; exact ih
    | some y =>
      simp only [selGo, selPick, hc]
      rw [selGo_some]
      cases hp : selPick fy t with
      | none => rfl
      | some q => obtain ⟨e, k⟩ := q; rfl

theorem selDiffs_cons_none (fy : Int) {c : Committee} (t : List Committee)
    (hc : committee_year_of c = none) : selDiffs fy (c :: t) = selDiffs fy t := by
  simp [selDiffs, List.filterMap_cons, hc]

theorem selDiffs_cons_some (fy : Int) {c : Committee} (t : List Committee) {y : Int}
    (hc : committee_year_of c = some y) :
    selDiffs fy (c :: t) = (fy - y).natAbs :: selDiffs fy t := by
  simp [selDiffs, List.filterMap_cons, hc]

theorem selPick_none_iff (fy : Int) (l : List Committee) :
    selPick fy l = none ↔ selDiffs fy l = [] := by
  induction l with
  | nil => simp [selPick, selDiffs]
  | cons c t ih =>
    cases hc : committee_year_of c with
    | none => rw [selDiffs_cons_none fy t hc]; simpa [selPick, hc] using ih
    | some y =>
      rw [selDiffs_cons_some fy t hc]
      simp only [selPick, hc]
      cases hp : selPick fy t with
      | none => dsimp only; simp
      | some q => obtain ⟨e, k⟩ := q; dsimp only; split_ifs <;> simp

theorem mem_selDiffs_of_year (fy : Int) {l : List Committee} {x : Committee} {y : Int}
    (hx : x ∈ l) (hy : committee_year_of x = some y) :
    (fy - y).natAbs ∈ selDiffs fy l := by
  simp only [selDiffs, List.mem_filterMap]
  exact ⟨x, hx, by simp [hy]⟩

theorem selPick_min (fy : Int) (l : List Committee) (b : Committee) (m : Nat)
    (h : selPick fy l = some (b, m)) :
    (∃ yb, committee_year_of b = some yb ∧ (fy - yb).natAbs = m) ∧
      m ∈ selDiffs fy l ∧ ∀ d ∈ selDiffs fy l, m ≤ d := by
  induction l generalizing b m with
  | nil => exact absurd h (by simp [selPick])
  | cons c t ih =>
    cases hc : committee_year_of c with
    | none =>
      simp only [selPick, hc] at h
      rw [selDiffs_cons_none fy t hc]
      exact ih b m h
    | some y =>
      simp only [selPick, hc] at h
      rw [selDiffs_cons_some fy t hc]
      cases hp : selPick fy t with
      | none =>
        rw [hp] at h
        dsimp only at h
        have hb : b = c := by cases h; rfl
        have hm : m = (fy - y).natAbs := by cases h; rfl
        subst hb; subst hm
        have hdt : selDiffs fy t = [] := (selPick_none_iff fy t).mp hp
        refine ⟨⟨y, hc, rfl⟩, by simp, ?_⟩
        intro d hd
        rcases List.mem_cons.mp hd with h1 | h2
        · omega
        · rw [hdt] at h2; exact absurd h2 (List.not_mem_nil d)
      | some q =>
        obtain ⟨e, k⟩ := q
        rw [hp] at h
        dsimp only at h
        obtain ⟨⟨ye, hye, hke⟩, hkmem, hkmin⟩ := ih e k hp
        by_cases hkd : k < (fy - y).natAbs
        · rw [if_pos hkd] at h
          have hb : b = e := by cases h; rfl
          have hm : m = k := by cases h; rfl
          subst hb; subst hm
          refine ⟨⟨ye, hye, hke⟩, List.mem_cons_of_mem _ hkmem, ?_⟩
          intro d hd
          rcases List.mem_cons.mp hd with h1 | h2
          · omega
          · exact hkmin d h2
        · rw [if_neg hkd] at h
          have hb : b = c := by cases h; rfl
          have hm : m = (fy - y).natAbs := by cases h; rfl
          subst hb; subst hm
          refine ⟨⟨y, hc, rfl⟩, by simp, ?_⟩
          intro d hd
          rcases List.mem_cons.mp hd with h1 | h2
          · omega
          · have := hkmin d h2
            omega

theorem find?_congr_mem {α : Type} (p q : α → Bool) (l : List α)
    (h : ∀ x ∈ l, p x = q x) : l.find? p = l.find? q := by
  induction l with
  | nil => rfl
  | cons c t ih =>
    have hc := h c (by simp)
    by_cases hp : p c = true
    · rw [List.find?_cons_of_pos _ hp, List.find?_cons_of_pos _ (hc ▸ hp)]
    · have hq : ¬ q c = true := fun hh => hp (hc ▸ hh)
      rw [List.find?_cons_of_neg _ hp, List.find?_cons_of_neg _ hq]
      exact ih (fun x hx => h x (List.mem_cons_of_mem _ hx))

theorem spec_eq_pick (fy : Int) (l : List Committee) :
    select_closest_spec l fy = (selPick fy l).map (fun p => p.1) := by
  induction l with
  | nil => rfl
  | cons c t ih =>
    cases hc : committee_year_of c with
    | none =>
      have hds := selDiffs_cons_none fy t hc
      have hpk : selPick fy (c :: t) = selPick fy t := by simp [selPick, hc]
      unfold select_closest_spec
      rw [hds, hpk, List.find?_cons_of_neg _ (by simp [specPred, hc]), ← ih]
      rfl
    | some y =>
      have hds := selDiffs_cons_some fy t hc
      cases hp : selPick fy t with
      | none =>
        have hdt : selDiffs fy t = [] := (selPick_none_iff fy t).mp hp
        have hpick : selPick fy (c :: t) = some (c, (fy - y).natAbs) := by
          simp [selPick, hc, hp]
        have hctrue : specPred fy (selDiffs fy (c :: t)) c = true := by
          simp [specPred, hc, hds, hdt]
        unfold select_closest_spec
        rw [List.find?_cons_of_pos _ hctrue, hpick]
        rfl
      | some q =>
        obtain ⟨b, m⟩ := q
        obtain ⟨⟨yb, hyb, hmb⟩, hmmem, hmmin⟩ := selPick_min fy t b m hp
        by_cases hmd : m < (fy - y).natAbs
        · have hpick : selPick fy (c :: t) = some (b, m) := by
            simp [selPick, hc, hp, hmd]
          have hcfalse : ¬ specPred fy (selDiffs fy (c :: t)) c = true := by
            simp only [specPred, hc, hds, List.all_cons, Bool.and_eq_true]
            intro hcon
            obtain ⟨-, hall⟩ := hcon
            have := List.all_eq_true.mp hall m hmmem
            simp at this
            omega
          have hcongr : ∀ x ∈ t, specPred fy (selDiffs fy (c :: t)) x =
              specPred fy (selDiffs fy t) x := by
            intro x _
            cases hx : committee_year_of x with
            | none => simp [specPred, hx]
            | some yx =>
              simp only [specPred, hx, hds, List.all_cons]
              cases hall : (selDiffs fy t).all (fun d => decide ((fy - yx).natAbs ≤ d)) with
              | false => simp
              | true =>
                have hxm : (fy - yx).natAbs ≤ m := by
                  have := List.all_eq_true.mp hall m hmmem
                  simpa using this
                have hxd : (fy - yx).natAbs ≤ (fy - y).natAbs := by omega
                simp [hxd]
          unfold select_closest_spec
          rw [List.find?_cons_of_neg _ hcfalse, find?_congr_mem _ _ t hcongr]
          have hsp : List.find? (specPred fy (selDiffs fy t)) t = select_closest_spec t fy := rfl
          rw [hsp, ih, hpick, hp]
        · have hpick : selPick fy (c :: t) = some (c, (fy - y).natAbs) := by
            simp [selPick, hc, hp, hmd]
          have hctrue : specPred fy (selDiffs fy (c :: t)) c = true := by
            simp only [specPred, hc, hds, List.all_cons, Bool.and_eq_true, List.all_eq_true]
            refine ⟨by simp, ?_⟩
            intro d hd
            have h1 := hmmin d hd
            have h2 : (fy - y).natAbs ≤ d := by omega
            simp [h2]
          unfold select_closest_spec
          rw [List.find?_cons_of_pos _ hctrue, hpick]
          rfl

end YearProximity

/-- Claim C7 (confirmed).  The year-proximity selection is exactly the
specified rule — among the committees whose code matches `CC-YY-`
(expanded by the `<50 ⇒ 2000+`, `≥50 ⇒ 1900+` rule), the first one whose
encoded year has the smallest absolute difference from the filing year is
chosen, other codes being ignored — and in particular, for `CC-18-001`
and `CC-22-001` with filing year 2021, `CC-22-001` (difference 1) is
selected over `CC-18-001` (difference 3). -/
theorem C7_year_proximity_selection :
    (∀ (l : List Committee) (fy : Int),
      select_closest_committee_by_year l fy = select_closest_spec l fy) ∧
    select_closest_committee_by_year [cme18, cme22] 2021 = some cme22 := by
  constructor
  · intro l fy
    rw [select_closest_committee_by_year, selGo_none, spec_eq_pick]
  · decide

theorem selPick_none_of_unparseable (fy : Int) (l : List Committee)
    (h : ∀ c ∈ l, committee_year_of c = none) :
    select_closest_committee_by_year l fy = none := by
  have hds : selDiffs fy l = [] := by
    rw [selDiffs, List.filterMap_eq_nil_iff]
    intro c hcl
    simp [h c hcl]
  rw [select_closest_committee_by_year, selGo_none, (selPick_none_iff fy l).mpr hds]
  rfl

/-- Claim C10 (confirmed).  When the name lookup resolves to a committee
whose candidate owns more than one committee code but none of those codes
matches the `CC-YY-` pattern, the year-proximity selection returns no
result and the resolver falls back to the committee found by name lookup,
rather than `None`. -/
theorem C10_resolver_fallback (nv : List (String × String))
    (ntc : List (String × Committee)) (cm : List (String × Committee))
    (r : Option String) (fy : Int) (m : Committee)
    (hfind : find_matching_committee nv ntc r = some m)
    (hlen : (candidate_committees cm m).length > 1)
    (hnone : ∀ c ∈ candidate_committees cm m, committee_year_of c = none) :
    resolve_committee nv ntc cm r fy = some m := by
  unfold resolve_committee
  rw [hfind]
  dsimp only
  rw [if_pos hlen, selPick_none_of_unparseable fy _ hnone]

/-- Witness for C10 at a concrete table: the matched candidate owns two
committees, with codes `AB-12-001` (wrong pattern) and a missing code. -/
theorem C10_resolver_fallback_witness :
    find_matching_committee rsvNameVariations rsvNormalizedToCommittee (some "Joe for Senate") =
        some cmeMatched ∧
      (candidate_committees rsvCommitteeMappings cmeMatched).length > 1 ∧
      resolve_committee rsvNameVariations rsvNormalizedToCommittee rsvCommitteeMappings
        (some "Joe for Senate") 2021 = some cmeMatched := by
  refine ⟨by decide, by decide, ?_⟩
  exact C10_resolver_fallback rsvNameVariations rsvNormalizedToCommittee rsvCommitteeMappings
    (some "Joe for Senate") 2021 cmeMatched (by decide) (by decide) (by decide)

section OnTime

theorem scan_isSome (txd rpd : PyDate) (isOn : Bool) (ps : List FilingPeriod) :
    (scanPeriods txd rpd isOn ps).isSome = true := by
  induction ps with
  | nil => rfl
  | cons p rest ih =>
    rw [scanPeriods]
    cases hs : to_date (some p.filingPeriodStart) with
    | none => exact ih
    | some s =>
      cases he : to_date (some p.filingPeriodEnd) with
      | none => exact ih
      | some e =>
        cases hd : to_date (some p.filingPeriodDeadline) with
        | none => exact ih
        | some dl =>
          dsimp only
          split_ifs <;> first | rfl | exact ih

theorem scan_no_match (txd rpd : PyDate) (isOn : Bool) (ps : List FilingPeriod)
    (h : ∀ p ∈ ps, period_applies txd isOn p = false) :
    scanPeriods txd rpd isOn ps = some false := by
  induction ps with
  | nil => rfl
  | cons p rest ih =>
    have hp := h p (by simp)
    have hrest : ∀ q ∈ rest, period_applies txd isOn q = false :=
      fun q hq => h q (List.mem_cons_of_mem _ hq)
    rw [scanPeriods]
    cases hs : to_date (some p.filingPeriodStart) with
    | none => exact ih hrest
    | some s =>
      cases he : to_date (some p.filingPeriodEnd) with
      | none => exact ih hrest
      | some e =>
        cases hd : to_date (some p.filingPeriodDeadline) with
        | none => exact ih hrest
        | some dl =>
          rw [period_applies, hs, he, hd] at hp
          dsimp only at hp ⊢
          by_cases hcont : (dateLe s txd && dateLe txd e) = true
          · have hflag : ((isOn && p.onCycle) || (!isOn && !p.onCycle)) = false := by
              rw [Bool.and_assoc] at hp
              rcases Bool.and_eq_false_iff.mp hp with h1 | h2
              · exact absurd (Bool.and_eq_true_iff.mp hcont).1 (by simp [h1])
              · rcases Bool.and_eq_false_iff.mp h2 with h3 | h4
                · exact absurd (Bool.and_eq_true_iff.mp hcont).2 (by simp [h3])
                · exact h4
            rw [if_pos hcont, if_neg (by simp [hflag])]
            exact ih hrest
          · rw [if_neg hcont]
            exact ih hrest

theorem to_date_some_not_falsy {o : Option String} {d : PyDate} (h : to_date o = some d) :
    falsyStr o = false := by
  cases o with
  | none => exact absurd h (by simp [to_date])
  | some v =>
    by_cases hv : v = ""
    · subst hv; exact absurd h (by simp [to_date])
    · simp [falsyStr, hv]

theorem report_year_some_not_falsy {o : Option String} {y : Int}
    (h : report_year_of o = some y) : falsyStr o = false := by
  cases o with
  | none => exact absurd h (by simp [report_year_of])
  | some s =>
    by_cases hs : s = ""
    · subst hs; exact absurd h (by simp [report_year_of])
    · simp [falsyStr, hs]

theorem pyInt_of_report_year {o : Option String} {y : Int} (h : report_year_of o = some y) :
    pyInt ((o.getD "").data) = some y := by
  cases o with
  | none => exact absurd h (by simp [report_year_of])
  | some s =>
    by_cases hs : s = ""
    · subst hs; exact absurd h (by simp [report_year_of])
    · simpa [report_year_of, hs] using h

/-- Reduction of `determine_on_time_status` to the period scan when all
three inputs parse. -/
theorem determine_eq_scan {td rd ec ry : Option String} {dtx drp : PyDate} {yr : Int}
    (htx : to_date td = some dtx) (hrp : to_date rd = some drp)
    (hyr : report_year_of ry = some yr) :
    determine_on_time_status td rd ec ry =
      scanPeriods dtx drp (is_on_cycle_for yr (election_year_of ec))
        (get_filing_periods_for_year yr) := by
  unfold determine_on_time_status
  rw [to_date_some_not_falsy htx, to_date_some_not_falsy hrp, report_year_some_not_falsy hyr]
  simp only [Bool.or_self, Bool.false_eq_true, if_false]
  rw [htx, hrp]
  dsimp only
  rw [pyInt_of_report_year hyr]

theorem is_on_cycle_eq_false {yr : Int} {ey : Option Int} (h : ey ≠ some yr) :
    is_on_cycle_for yr ey = false := by
  cases ey with
  | none => rfl
  | some e =>
    rw [is_on_cycle_for]
    by_cases he : e = 0
    · simp [he]
    · have hne : yr ≠ e := fun hh => h (by rw [hh])
      simp [he, hne]

theorem period_applies_off_of_on (txd : PyDate) (p : FilingPeriod) (hoff : p.onCycle = false) :
    period_applies txd true p = false := by
  rw [period_applies]
  cases to_date (some p.filingPeriodStart) <;>
    cases to_date (some p.filingPeriodEnd) <;>
    cases to_date (some p.filingPeriodDeadline) <;>
    simp [hoff]

end OnTime

/-- Claim C3 (confirmed).  Against the curated 2024 calendar, a
transaction dated 2024-06-30 with report year 2024 and any election cycle
that does not yield election year 2024 (off-cycle) is on time when
reported 2024-07-15 and late when reported 2024-07-16: the first
off-cycle window ends 2024-06-30 with deadline 2024-07-15. -/
theorem C3_on_time_boundary (ec : Option String) (h : election_year_of ec ≠ some 2024) :
    determine_on_time_status (some "2024-06-30") (some "2024-07-15") ec (some "2024") =
        some true ∧
      determine_on_time_status (some "2024-06-30") (some "2024-07-16") ec (some "2024") =
        some false := by
  have hoff := is_on_cycle_eq_false h
  have htx : to_date (some "2024-06-30") = some ⟨2024, 6, 30⟩ := by decide
  have h15 : to_date (some "2024-07-15") = some ⟨2024, 7, 15⟩ := by decide
  have h16 : to_date (some "2024-07-16") = some ⟨2024, 7, 16⟩ := by decide
  have hry : report_year_of (some "2024") = some 2024 := by decide
  constructor
  · rw [determine_eq_scan htx h15 hry, hoff]
    decide
  · rw [determine_eq_scan htx h16 hry, hoff]
    decide

/-- Witness for C3 at the concrete cycle `11/2025`. -/
theorem C3_on_time_boundary_witness :
    election_year_of (some "11/2025") ≠ some 2024 ∧
      determine_on_time_status (some "2024-06-30") (some "2024-07-15") (some "11/2025")
        (some "2024") = some true ∧
      determine_on_time_status (some "2024-06-30") (some "2024-07-16") (some "11/2025")
        (some "2024") = some false :=
  ⟨by decide, C3_on_time_boundary (some "11/2025") (by decide)⟩

/-- Claim C4 (confirmed).  The on-time determination returns `null`
whenever the transaction date, report date or report year is missing or
unparseable; and whenever all three parse, the result is always a boolean
(`true`/`false`), so a missing or unparseable election cycle alone never
produces `null`. -/
theorem C4_unknown_date_safety :
    (∀ td rd ec ry : Option String,
        to_date td = none ∨ to_date rd = none ∨ report_year_of ry = none →
        determine_on_time_status td rd ec ry = none) ∧
    (∀ td rd ec ry : Option String, (to_date td).isSome → (to_date rd).isSome →
        (report_year_of ry).isSome →
        (determine_on_time_status td rd ec ry).isSome) ∧
    (∀ yr : Int, is_on_cycle_for yr (election_year_of none) = false) := by
  refine ⟨?_, ?_, fun yr => rfl⟩
  · intro td rd ec ry h
    unfold determine_on_time_status
    by_cases hcond : (falsyStr td || falsyStr rd || falsyStr ry) = true
    · rw [if_pos hcond]
    · rw [if_neg hcond]
      have hcf : (falsyStr td || falsyStr rd || falsyStr ry) = false := by
        simpa using hcond
      have hfal : falsyStr td = false ∧ falsyStr rd = false ∧ falsyStr ry = false := by
        rcases Bool.or_eq_false_iff.mp hcf with ⟨h12, h3⟩
        rcases Bool.or_eq_false_iff.mp h12 with ⟨h1, h2⟩
        exact ⟨h1, h2, h3⟩
      rcases h with h | h | h
      · rw [h]
      · rw [h]
        cases to_date td <;> rfl
      · cases htd : to_date td with
        | none => rfl
        | some dtx =>
          cases hrd : to_date rd with
          | none => rfl
          | some drp =>
            dsimp only
            cases ry with
            | none => simp [falsyStr] at hfal
            | some s =>
              have hs : s ≠ "" := by
                intro hs0
                rw [hs0] at hfal
                simp [falsyStr] at hfal
              rw [report_year_of] at h
              rw [if_neg hs] at h
              simp only [Option.getD]
              rw [h]
  · intro td rd ec ry htx hrp hyr
    obtain ⟨dtx, htx⟩ := Option.isSome_iff_exists.mp htx
    obtain ⟨drp, hrp⟩ := Option.isSome_iff_exists.mp hrp
    obtain ⟨yr, hyr⟩ := Option.isSome_iff_exists.mp hyr
    rw [determine_eq_scan htx hrp hyr]
    exact scan_isSome dtx drp _ _

/-- Witness for C4: an unparseable transaction date gives `null`, and with
all dates parseable a missing election cycle still gives a boolean. -/
theorem C4_unknown_date_safety_witness :
    determine_on_time_status (some "garbage") (some "2023-06-01") none (some "2023") = none ∧
      (determine_on_time_status (some "2023-05-01") (some "2023-06-01") none
        (some "2023")).isSome :=
  ⟨C4_unknown_date_safety.1 (some "garbage") (some "2023-06-01") none (some "2023")
      (Or.inl (by decide)),
    C4_unknown_date_safety.2.1 (some "2023-05-01") (some "2023-06-01") none (some "2023")
      (by decide) (by decide) (by decide)⟩

/-- Claim C5 (confirmed).  When all three inputs parse but the transaction
date falls in no filing-period window of the report year whose cycle flag
matches the transaction's cycle status, the determination returns `false`
(late), never `null`. -/
theorem C5_calendar_miss (td rd ec ry : Option String) (dtx drp : PyDate) (yr : Int)
    (htx : to_date td = some dtx) (hrp : to_date rd = some drp)
    (hyr : report_year_of ry = some yr)
    (hmiss : ∀ p ∈ get_filing_periods_for_year yr,
      period_applies dtx (is_on_cycle_for yr (election_year_of ec)) p = false) :
    determine_on_time_status td rd ec ry = some false := by
  rw [determine_eq_scan htx hrp hyr]
  exact scan_no_match dtx drp _ _ hmiss

/-- Witness for C5: an on-cycle 2023 transaction (cycle `2023`, report
year 2023) matches no generic window, and resolves to `false`. -/
theorem C5_calendar_miss_witness :
    (∀ p ∈ get_filing_periods_for_year 2023,
      period_applies ⟨2023, 5, 1⟩ (is_on_cycle_for 2023 (election_year_of (some "2023"))) p =
        false) ∧
    determine_on_time_status (some "2023-05-01") (some "2023-06-01") (some "2023")
      (some "2023") = some false :=
  ⟨by decide,
    C5_calendar_miss (some "2023-05-01") (some "2023-06-01") (some "2023") (some "2023")
      ⟨2023, 5, 1⟩ ⟨2023, 6, 1⟩ 2023 (by decide) (by decide) (by decide) (by decide)⟩

/-- Claim C9 (confirmed).  For every report year other than 2024 the
filing calendar consists only of off-cycle windows, so a transaction
whose election cycle yields an election year equal to the report year is
never classified on time: whenever all three inputs parse, the
determination returns `false`.  (For year 0 the cycle is treated as
falsy, but the generic windows of year 0 fail to parse, so the scan still
falls through to `false`.) -/
theorem C9_non_curated_on_cycle_late (td rd ec ry : Option String) (dtx drp : PyDate)
    (yr : Int) (htx : to_date td = some dtx) (hrp : to_date rd = some drp)
    (hyr : report_year_of ry = some yr) (hey : election_year_of ec = some yr)
    (hne : yr ≠ 2024) :
    determine_on_time_status td rd ec ry = some false := by
  rw [determine_eq_scan htx hrp hyr, hey]
  rw [show get_filing_periods_for_year yr = generic_filing_periods yr from if_neg hne]
  by_cases h0 : yr = 0
  · subst h0
    have hcyc : is_on_cycle_for 0 (some 0) = false := rfl
    rw [hcyc]
    refine scan_no_match dtx drp false _ ?_
    intro p hp
    rcases List.mem_cons.mp hp with rfl | hp2
    · rfl
    · rcases List.mem_cons.mp hp2 with rfl | hp3
      · rfl
      · exact absurd hp3 (List.not_mem_nil p)
  · have hcyc : is_on_cycle_for yr (some yr) = true := by
      rw [is_on_cycle_for]
      simp [h0]
    rw [hcyc]
    refine scan_no_match dtx drp true _ ?_
    intro p hp
    rcases List.mem_cons.mp hp with rfl | hp2
    · exact period_applies_off_of_on dtx _ rfl
    · rcases List.mem_cons.mp hp2 with rfl | hp3
      · exact period_applies_off_of_on dtx _ rfl
      · exact absurd hp3 (List.not_mem_nil p)

/-- Witness for C9 at report year 2023 with cycle `2023`. -/
theorem C9_non_curated_on_cycle_late_witness :
    to_date (some "2023-05-01") = some ⟨2023, 5, 1⟩ ∧
      election_year_of (some "2023") = some 2023 ∧
      determine_on_time_status (some "2023-05-01") (some "2023-01-02") (some "2023")
        (some "2023") = some false :=
  ⟨by decide, by decide,
    C9_non_curated_on_cycle_late (some "2023-05-01") (some "2023-01-02") (some "2023")
      (some "2023") ⟨2023, 5, 1⟩ ⟨2023, 1, 2⟩ 2023 (by decide) (by decide) (by decide)
      (by decide) (by decide)⟩

/-- Claim C6 (confirmed).  In the near-duplicate suppressor, two records
identical in every field except `report_date` and `folder_name` (both in
the flexible set) collapse to a single output record, while two records
that agree everywhere except for differing amount strings both survive:
the amount is part of the bucket key, so they are never compared as near
duplicates. -/
theorem C6_near_duplicate_suppression :
    (∀ r1 r2 : NDRec,
      r1.amount = r2.amount → r1.candidate_name = r2.candidate_name →
      r1.committee_code = r2.committee_code → r1.donor_name = r2.donor_name →
      r1.entity_name = r2.entity_name → r1.ontime = r2.ontime →
      r1.payee_name = r2.payee_name → r1.recipient_name = r2.recipient_name →
      r1.reportid = r2.reportid → r1.schedule_type = r2.schedule_type →
      r1.transaction_date = r2.transaction_date → r1.vendor_name = r2.vendor_name →
      deduplicate_records [r1, r2] = [r1]) ∧
    (∀ r1 r2 : NDRec, ∀ a1 a2 : String,
      r1.amount = some a1 → r2.amount = some a2 → a1 ≠ a2 →
      r1.candidate_name = r2.candidate_name →
      r1.committee_code = r2.committee_code → r1.donor_name = r2.donor_name →
      r1.entity_name = r2.entity_name → r1.folder_name = r2.folder_name →
      r1.ontime = r2.ontime →
      r1.payee_name = r2.payee_name → r1.recipient_name = r2.recipient_name →
      r1.report_date = r2.report_date → r1.reportid = r2.reportid →
      r1.schedule_type = r2.schedule_type →
      r1.transaction_date = r2.transaction_date → r1.vendor_name = r2.vendor_name →
      deduplicate_records [r1, r2] = [r1, r2]) := by
  constructor
  · intro r1 r2 h1 h2 h3 h4 h5 h6 h7 h8 h9 h10 h11 h12
    have hent : ndEntity r2 = ndEntity r1 := by
      unfold ndEntity
      rw [← h5, ← h8, ← h4, ← h7, ← h12]
    have hk : ndGroupKey r2 = ndGroupKey r1 := by
      unfold ndGroupKey
      rw [hent, ← h1, ← h11, ← h2]
    have hcnt : count_field_differences r2 r1 extendedFlexibleFields = 0 := by
      unfold count_field_differences ndFields
      simp [extendedFlexibleFields, ← h3, ← h10]
    by_cases hh : get_record_hash r2 = get_record_hash r1
    · unfold deduplicate_records
      simp [ndExact, ndExactAux, hh, ndKeysInOrder, ndGroupUnique, hk, hcnt]
    · unfold deduplicate_records
      simp [ndExact, ndExactAux, hh, ndKeysInOrder, ndGroupUnique, hk, hcnt]
  · intro r1 r2 a1 a2 ha1 ha2 hne h2 h3 h4 h5 hf h6 h7 h8 hrd h9 h10 h11 h12
    have hstr : a1.data ≠ a2.data := fun hd => hne (String.ext hd)
    have hent : ndEntity r2 = ndEntity r1 := by
      unfold ndEntity
      rw [← h5, ← h8, ← h4, ← h7, ← h12]
    have hkne : ndGroupKey r2 ≠ ndGroupKey r1 := by
      unfold ndGroupKey
      rw [hent, ← h11, ← h2, ha1, ha2]
      intro hEq
      simp only [fStr] at hEq
      rw [List.append_left_inj, List.append_left_inj, List.append_left_inj] at hEq
      exact hstr hEq.symm
    have hhne : get_record_hash r2 ≠ get_record_hash r1 := by
      intro hEq
      unfold get_record_hash ndFields at hEq
      simp only [List.map] at hEq
      rw [← h2, ← h3, ← h4, ← h5, ← hf, ← h6, ← h7, ← h8, ← hrd, ← h9, ← h10, ← h11, ← h12,
        ha1, ha2] at hEq
      simp only [joinWith, hashVal] at hEq
      rw [List.append_left_inj, List.append_right_inj] at hEq
      simp only [List.cons.injEq, true_and] at hEq
      exact hstr hEq.symm
    have hkne2 : ndGroupKey r1 ≠ ndGroupKey r2 := fun hh => hkne hh.symm
    have hhne2 : get_record_hash r1 ≠ get_record_hash r2 := fun hh => hhne hh.symm
    unfold deduplicate_records
    simp [ndExact, ndExactAux, hhne, hhne2, ndKeysInOrder, hkne, hkne2, ndGroupUnique]

/-- Witness for C6 at concrete records: `ndr2` differs from `ndr1` only in
`report_date` and `folder_name`; `ndr3` differs only in a two-cent amount
change. -/
theorem C6_near_duplicate_suppression_witness :
    deduplicate_records [ndr1, ndr2] = [ndr1] ∧
      deduplicate_records [ndr1, ndr3] = [ndr1, ndr3] :=
  ⟨C6_near_duplicate_suppression.1 ndr1 ndr2 rfl rfl rfl rfl rfl rfl rfl rfl rfl rfl rfl rfl,
    C6_near_duplicate_suppression.2 ndr1 ndr3 "100.00" "100.02" rfl rfl (by decide) rfl rfl
      rfl rfl rfl rfl rfl rfl rfl rfl rfl rfl rfl⟩

end VaCF
